import Mathlib

/-!
Verification development for the deepsearch repository.

The repository ships two executable source files, `app/api/migrate/route.ts`
and `lib/rate-limit.ts`, which are embedded below directly from their code.
The iterative research orchestration engine described by the specification
(BudgetController, SourceRegistry, ActivityLog, Planner, ResearchOrchestrator,
Synthesizer) has no source file in the repository; it is modelled from the
specification text, and every definition belonging to that model carries a
doc comment saying so.

Machine integers do not occur: all counters are natural numbers, all
environment variables and request fields are `Option String` values mirroring
the JavaScript `string | undefined` type, and JavaScript truthiness of an
environment variable is the explicit predicate `truthy`.
-/

/-- Truthiness of a JavaScript `string | undefined` value as used on
`process.env` fields: `undefined` and the empty string are falsy, every
other string is truthy. -/
def truthy : Option String → Bool
  | none => false
  | some s => !(s == "")

/-! ## Embedding of `lib/rate-limit.ts` -/

/-- The environment variables read by `lib/rate-limit.ts`. -/
structure RateLimitEnv where
  upstashUrl : Option String
  upstashToken : Option String
deriving DecidableEq, Repr

/-- Embeds `hasRedisCredentials` (rate-limit.ts lines 5-9): the chained
JavaScript condition
`URL && URL !== '****' && TOKEN && TOKEN !== '****'` coerced to a boolean. -/
def hasRedisCredentials (e : RateLimitEnv) : Bool :=
  truthy e.upstashUrl && !(e.upstashUrl == some "****") &&
  truthy e.upstashToken && !(e.upstashToken == some "****")

/-- Configuration captured by `new Redis({url, token, ...})`. -/
structure RedisConfig where
  url : String
  token : String
deriving DecidableEq, Repr

/-- Embeds `redis` (rate-limit.ts line 12): a Redis instance exactly when the
credentials are available, otherwise `null`. -/
def redis (e : RateLimitEnv) : Option RedisConfig :=
  if hasRedisCredentials e then
    some ⟨e.upstashUrl.getD "", e.upstashToken.getD ""⟩
  else
    none

/-- Embeds `rateLimiter` (rate-limit.ts line 25): a Ratelimit instance built
over `redis` when that is non-null, otherwise `null`.  The instance is
identified by the Redis configuration it wraps. -/
def rateLimiter (e : RateLimitEnv) : Option RedisConfig :=
  match redis e with
  | some cfg => some cfg
  | none => none

/-- The value returned by `getRateLimiter`: either the real Upstash limiter
or the mock limiter. -/
inductive RateLimiterChoice where
  | real (cfg : RedisConfig)
  | mock
deriving DecidableEq, Repr

/-- Embeds `getRateLimiter` (rate-limit.ts line 43):
`rateLimiter || mockRateLimiter`. -/
def getRateLimiter (e : RateLimitEnv) : RateLimiterChoice :=
  match rateLimiter e with
  | some cfg => .real cfg
  | none => .mock

/-- The object resolved by a `limit()` call. -/
structure RateLimitResult where
  success : Bool
  limit : Nat
  reset : Nat
  remaining : Nat
deriving DecidableEq, Repr

/-- Embeds `mockRateLimiter.limit` (rate-limit.ts lines 33-40): always
resolves to `{success: true, limit: 5, reset: Date.now() + 60000,
remaining: 4}`; `now` is the value of `Date.now()` at the call. -/
def mockRateLimiterLimit (now : Nat) : RateLimitResult :=
  ⟨true, 5, now + 60000, 4⟩

/-! ## Embedding of `app/api/migrate/route.ts` (POST handler) -/

/-- The environment variables read by the migration endpoint. -/
structure MigrateEnv where
  authSecret : Option String
  postgresUrl : Option String
deriving DecidableEq, Repr

/-- The behaviour of the effectful steps inside one POST invocation:
whether `request.json()` throws (and with what message), the `secret`
field of the parsed body (`none` models an absent field, i.e. `undefined`),
whether connecting/migrating throws, and how long the migration takes. -/
structure MigrateBehavior where
  parseError : Option String
  bodySecret : Option String
  migrateError : Option String
  migrateMs : Nat
deriving DecidableEq, Repr

/-- The JSON body of each response the handler can produce. -/
inductive MigrateBody where
  | unauthorized
  | pgNotConfigured
  | ok (msg : String)
  | failed (details : String)
deriving DecidableEq, Repr

/-- The handler outcome: HTTP status, JSON body, and whether the
`migrate(db, ...)` call was reached. -/
structure MigrateResponse where
  status : Nat
  body : MigrateBody
  ranMigrations : Bool
deriving DecidableEq, Repr

/-- Embeds the `POST` handler of `app/api/migrate/route.ts` lines 6-52.
The `try` block parses the body, compares `secret !== process.env.AUTH_SECRET`
(strict equality of two possibly-undefined values, modelled by equality on
`Option String`), checks `!process.env.POSTGRES_URL` by truthiness, then runs
the migration; the `catch` block converts any thrown error into a 500
response with a details object. -/
def migratePOST (env : MigrateEnv) (b : MigrateBehavior) : MigrateResponse :=
  match b.parseError with
  | some msg => ⟨500, .failed msg, false⟩
  | none =>
    if b.bodySecret ≠ env.authSecret then
      ⟨401, .unauthorized, false⟩
    else if !truthy env.postgresUrl then
      ⟨500, .pgNotConfigured, false⟩
    else
      match b.migrateError with
      | some msg => ⟨500, .failed msg, true⟩
      | none =>
        ⟨200, .ok ("Migrations completed successfully in " ++
          toString b.migrateMs ++ "ms"), true⟩

/-! ## Theorems for the rate limiter and migration endpoint -/

/-- C9: whenever either Upstash variable is unset or equal to the placeholder
string, `getRateLimiter` returns the mock limiter, and every call to the mock
limiter resolves to success=true, limit=5, remaining=4; hence in that
configuration rate limiting never rejects a request. -/
theorem c9_mock_rate_limiter_never_rejects (e : RateLimitEnv)
    (h : e.upstashUrl = none ∨ e.upstashUrl = some "****" ∨
         e.upstashToken = none ∨ e.upstashToken = some "****") :
    getRateLimiter e = .mock ∧
    ∀ now, (mockRateLimiterLimit now).success = true ∧
      (mockRateLimiterLimit now).limit = 5 ∧
      (mockRateLimiterLimit now).remaining = 4 := by
  constructor
  · have hcred : hasRedisCredentials e = false := by
      rcases h with h | h | h | h <;>
        simp [hasRedisCredentials, truthy, h]
    simp [getRateLimiter, rateLimiter, redis, hcred]
  · intro now
    exact ⟨rfl, rfl, rfl⟩

/-- Witness for C9 at a concrete environment with the URL unset. -/
theorem c9_mock_rate_limiter_never_rejects_witness :
    getRateLimiter ⟨none, some "tok"⟩ = .mock ∧
    ∀ now, (mockRateLimiterLimit now).success = true ∧
      (mockRateLimiterLimit now).limit = 5 ∧
      (mockRateLimiterLimit now).remaining = 4 :=
  c9_mock_rate_limiter_never_rejects ⟨none, some "tok"⟩ (Or.inl rfl)

/-- C8: the migration handler returns 401 exactly when the parsed body's
secret differs (strict equality) from AUTH_SECRET; in particular, with
AUTH_SECRET unset and the secret field absent, the check passes
(undefined === undefined) and the handler proceeds to run migrations. -/
theorem c8_migrate_auth_strict_equality (env : MigrateEnv) (b : MigrateBehavior)
    (hp : b.parseError = none) :
    ((migratePOST env b).status = 401 ↔ b.bodySecret ≠ env.authSecret) ∧
    (b.bodySecret = none → env.authSecret = none →
      truthy env.postgresUrl = true → (migratePOST env b).ranMigrations = true) := by
  constructor
  · constructor
    · intro h401 heq
      cases hpg : truthy env.postgresUrl <;>
        cases hm : b.migrateError <;>
        simp [migratePOST, hp, heq, hpg, hm] at h401
    · intro hne
      simp [migratePOST, hp, hne]
  · intro hb ha hpg
    have heq : b.bodySecret = env.authSecret := by rw [hb, ha]
    cases hm : b.migrateError <;>
      simp [migratePOST, hp, heq, hpg, hm]

/-- Witness for C8: AUTH_SECRET unset, secret field absent, body parses,
POSTGRES_URL configured. -/
theorem c8_migrate_auth_strict_equality_witness :
    ((migratePOST ⟨none, some "postgres://db"⟩ ⟨none, none, none, 5⟩).status = 401 ↔
      (⟨none, none, none, 5⟩ : MigrateBehavior).bodySecret ≠
        (⟨none, some "postgres://db"⟩ : MigrateEnv).authSecret) ∧
    ((⟨none, none, none, 5⟩ : MigrateBehavior).bodySecret = none →
      (⟨none, some "postgres://db"⟩ : MigrateEnv).authSecret = none →
      truthy (⟨none, some "postgres://db"⟩ : MigrateEnv).postgresUrl = true →
      (migratePOST ⟨none, some "postgres://db"⟩ ⟨none, none, none, 5⟩).ranMigrations = true) :=
  c8_migrate_auth_strict_equality ⟨none, some "postgres://db"⟩ ⟨none, none, none, 5⟩ rfl

/-- C10: the migration handler always terminates with one of the JSON
responses 200/401/500, and each status occurs exactly under the condition
the code prescribes: 200 when parsing succeeds, the secret matches,
POSTGRES_URL is configured and migration completes; 401 when parsing
succeeds and the secret mismatches; 500 when parsing throws, or
POSTGRES_URL is unconfigured, or migration throws.  The handler is a total
function into `MigrateResponse`, so no exception escapes it. -/
theorem c10_migrate_total_response (env : MigrateEnv) (b : MigrateBehavior) :
    ((migratePOST env b).status = 200 ∨ (migratePOST env b).status = 401 ∨
      (migratePOST env b).status = 500) ∧
    ((migratePOST env b).status = 200 ↔
      (b.parseError = none ∧ b.bodySecret = env.authSecret ∧
        truthy env.postgresUrl = true ∧ b.migrateError = none)) ∧
    ((migratePOST env b).status = 401 ↔
      (b.parseError = none ∧ b.bodySecret ≠ env.authSecret)) ∧
    ((migratePOST env b).status = 500 ↔
      (b.parseError ≠ none ∨
        (b.parseError = none ∧ b.bodySecret = env.authSecret ∧
          (truthy env.postgresUrl = false ∨ b.migrateError ≠ none)))) := by
  cases hp : b.parseError with
  | some msg => simp [migratePOST, hp]
  | none =>
    by_cases heq : b.bodySecret = env.authSecret
    · cases hpg : truthy env.postgresUrl with
      | false => simp [migratePOST, hp, heq, hpg]
      | true =>
        cases hm : b.migrateError with
        | some msg => simp [migratePOST, hp, heq, hpg, hm]
        | none => simp [migratePOST, hp, heq, hpg, hm]
    · simp [migratePOST, hp, heq]

/-! ## Model of the research orchestration engine

The engine itself (`app/(chat)/api/chat/route.ts` per the architecture
document) ships no source file in this repository, so the definitions below
are modelled from the specification text. -/

/-- Modelled from the spec: the status enumeration of a
`ResearchSession` (§3). -/
inductive SessionStatus where
  | active
  | completed
  | timedOut
  | failed
deriving DecidableEq, Repr

/-- Modelled from the spec: a structured URL whose host, path, query
parameters and fragment are the features the canonicalization uses (§3,
SourceItem). -/
structure Url where
  host : String
  path : String
  queryParams : List (String × String)
  fragment : Option String
deriving DecidableEq, Repr

/-- Modelled from the spec: the canonical key of a URL — lowercase host,
stripped fragment and trailing slash, sorted query parameters (§3). -/
structure CanonKey where
  host : String
  path : String
  queryParams : List (String × String)
deriving DecidableEq, Repr

/-- Character-list comparison underlying the query-parameter order. -/
def charsLe : List Char → List Char → Bool
  | [], _ => true
  | _ :: _, [] => false
  | a :: as, b :: bs =>
    if a.val < b.val then true
    else if b.val < a.val then false
    else charsLe as bs

/-- Total order on strings used to sort query parameters. -/
def strLe (a b : String) : Bool :=
  charsLe a.data b.data

/-- Lexicographic comparison of query parameters by key, then value. -/
def pairLe (a b : String × String) : Bool :=
  if decide (a.1 = b.1) then strLe a.2 b.2 else strLe a.1 b.1

/-- Insert one query parameter into a sorted parameter list. -/
def insertPair (p : String × String) :
    List (String × String) → List (String × String)
  | [] => [p]
  | q :: t => if pairLe p q then p :: q :: t else q :: insertPair p t

/-- Sort query parameters lexicographically (insertion sort). -/
def sortParams : List (String × String) → List (String × String)
  | [] => []
  | p :: t => insertPair p (sortParams t)

/-- Lowercase every character of a string. -/
def lowerString (s : String) : String :=
  ⟨s.data.map Char.toLower⟩

/-- Drop one trailing slash from a path. -/
def stripTrailingSlash (p : String) : String :=
  if p.data.getLast? = some '/' then ⟨p.data.dropLast⟩ else p

/-- Modelled from the spec: canonicalization of a URL into its
deduplication key — lowercase host, trailing slash stripped, fragment
dropped, query parameters sorted (§3, Glossary). -/
def canonicalize (u : Url) : CanonKey :=
  ⟨lowerString u.host, stripTrailingSlash u.path, sortParams u.queryParams⟩

/-- Modelled from the spec: a discovered web source stored by the
SourceRegistry (§3). -/
structure SourceItem where
  url : Url
  canonicalUrl : CanonKey
  title : String
  content : Option String
deriving DecidableEq, Repr

/-- Modelled from the spec: the SourceRegistry state — sources ordered by
first registration (§4.2). -/
abbrev SourceRegistry := List SourceItem

/-- Modelled from the spec: a search result candidate handed to the
registry (§1, search provider interface). -/
structure Candidate where
  url : Url
  title : String
  snippet : Option String
deriving DecidableEq, Repr

/-- Modelled from the spec: merging newly available content into an
existing item keeps the content already stored and fills it otherwise
(§4.2). -/
def mergeContent (oldC newC : Option String) : Option String :=
  match oldC with
  | some s => some s
  | none => newC

/-- Modelled from the spec: the event vocabulary of the response stream
(§6).  Activity events carry their kind and status. -/
inductive ActKind where
  | searching
  | extracting
  | analyzing
  | planning
  | synthesizing
deriving DecidableEq, Repr

/-- Modelled from the spec: the lifecycle status of an activity record
(§3, ActivityItem). -/
inductive ActStatus where
  | pending
  | complete
  | error
deriving DecidableEq, Repr

/-- Modelled from the spec: one event of the ordered response stream (§6). -/
inductive Event where
  | progressInit (estimatedTotalSteps : Nat)
  | depthDelta (depth : Nat)
  | activityDelta (kind : ActKind) (status : ActStatus) (depth : Nat)
  | sourceDelta (url : Url) (title : String)
  | textDelta (fragment : String)
  | finish (report : String) (iterations : Nat) (sourceCount : Nat)
deriving DecidableEq, Repr

/-- Modelled from the spec: `register(candidate)` of the SourceRegistry
(§4.2) — computes the canonical key; if unseen, appends the item and
emits a source-delta; if seen, merges content into the existing item,
emits nothing, and reports isNew=false. -/
def register (reg : SourceRegistry) (c : Candidate) :
    Bool × SourceRegistry × Option Event :=
  let key := canonicalize c.url
  if reg.any (fun it => decide (it.canonicalUrl = key)) then
    (false,
     reg.map (fun it =>
       if decide (it.canonicalUrl = key) then
         { it with content := mergeContent it.content c.snippet }
       else it),
     none)
  else
    (true, reg ++ [⟨c.url, key, c.title, c.snippet⟩],
     some (.sourceDelta c.url c.title))

/-- Output of registering a whole batch of candidates. -/
structure RegisterAllOut where
  reg : SourceRegistry
  events : List Event
  newItems : List SourceItem
deriving Repr

/-- Modelled from the spec: registering each candidate of a search result in
order; only isNew=true registrations contribute a source-delta event, and
the newly registered items are collected in discovery order (§4.2, §4.5
SEARCHING). -/
def registerAll (reg : SourceRegistry) : List Candidate → RegisterAllOut
  | [] => ⟨reg, [], []⟩
  | c :: t =>
    let r := register reg c
    let rest := registerAll r.2.1 t
    if r.1 then
      ⟨rest.reg, r.2.2.toList ++ rest.events,
        ⟨c.url, canonicalize c.url, c.title, c.snippet⟩ :: rest.newItems⟩
    else
      ⟨rest.reg, r.2.2.toList ++ rest.events, rest.newItems⟩

/-- Modelled from the spec: the per-invocation research session state (§3). -/
structure ResearchSession where
  query : String
  maxDepth : Nat
  timeLimit : Nat
  startTime : Nat
  currentDepth : Nat
  status : SessionStatus
deriving DecidableEq, Repr

/-- Modelled from the spec: elapsed wall-clock time of a session at clock
reading `now` (§3, startTime). -/
def elapsed (s : ResearchSession) (now : Nat) : Nat :=
  now - s.startTime

/-- Modelled from the spec: `BudgetController.shouldStartIteration` (§4.1) —
true exactly when both the depth budget and the time budget still have room;
false iff `currentDepth >= maxDepth` or `elapsed >= timeLimit`.  A pure
predicate: it takes the session and the clock reading and returns a boolean,
touching nothing. -/
def shouldStartIteration (s : ResearchSession) (now : Nat) : Bool :=
  decide (s.currentDepth < s.maxDepth) && decide (elapsed s now < s.timeLimit)

/-- Modelled from the spec: the hard depth cap (§6, maxDepth clamped to
[1,7]). -/
def maxDepthCap : Nat := 7

/-- Modelled from the spec: the hard time cap in milliseconds (§6,
timeLimit clamped to [1 s, 4.5 min]). -/
def timeLimitCapMs : Nat := 270000

/-- Modelled from the spec: the lower time bound in milliseconds (§6). -/
def timeLimitFloorMs : Nat := 1000

/-- Modelled from the spec: clamping the caller-supplied maxDepth into
[1,7], defaulting to 7 when absent (§3, §6). -/
def clampMaxDepth : Option Int → Nat
  | none => maxDepthCap
  | some d => (max 1 (min (Int.ofNat maxDepthCap) d)).toNat

/-- Modelled from the spec: clamping the caller-supplied timeLimit into
[1 s, 4.5 min], defaulting to 4.5 min when absent (§3, §6). -/
def clampTimeLimit : Option Int → Nat
  | none => timeLimitCapMs
  | some t => (max (Int.ofNat timeLimitFloorMs) (min (Int.ofNat timeLimitCapMs) t)).toNat

/-- Modelled from the spec: the caller request at the core entry point
(§6); optional overrides may be arbitrary integers before clamping. -/
structure Request where
  query : String
  maxDepth : Option Int
  timeLimit : Option Int
deriving DecidableEq, Repr

/-- Modelled from the spec: constructing a session from a request at INIT,
clamping both budgets before any iteration runs (§4.5 INIT). -/
def initSession (r : Request) (startTime : Nat) : ResearchSession :=
  ⟨r.query, clampMaxDepth r.maxDepth, clampTimeLimit r.timeLimit,
    startTime, 0, .active⟩

/-- Modelled from the spec: a research plan produced by the Planner (§3). -/
inductive PlanDecision where
  | cont
  | stop
deriving DecidableEq, Repr

/-- Modelled from the spec: the ResearchPlan record (§3). -/
structure ResearchPlan where
  decision : PlanDecision
  nextQueries : List String
  rationale : String
deriving DecidableEq, Repr

/-- Modelled from the spec: the tagged outcome of one reasoning-engine call
made by the Planner — well-formed, malformed, or failed (§9, design
notes). -/
inductive PlannerResponse where
  | wellFormed (p : ResearchPlan)
  | malformed
  | failed
deriving DecidableEq, Repr

/-- Modelled from the spec: the safe default plan returned when planning
cannot produce a well-formed result (§4.4). -/
def safeDefaultPlan : ResearchPlan :=
  ⟨.stop, [], "planning failed"⟩

/-- Modelled from the spec: the Planner's retry bound (§4.4, two retries). -/
def plannerRetries : Nat := 2

/-- Result of one Planner invocation: the plan, whether an error
ActivityItem is recorded, and how many reasoning-engine calls were made. -/
structure PlannerResult where
  plan : ResearchPlan
  errored : Bool
  calls : Nat
deriving DecidableEq, Repr

/-- Modelled from the spec: the Planner's attempt loop (§4.4).  `resp i` is
the reasoning engine's answer to attempt `i`; a well-formed answer is used
directly, a failed call falls back to the safe default at once, and a
malformed answer is retried until the attempt budget runs out. -/
def plannerAttempts (resp : Nat → PlannerResponse) : Nat → Nat → PlannerResult
  | _, 0 => ⟨safeDefaultPlan, true, 0⟩
  | i, fuel + 1 =>
    match resp i with
    | .wellFormed p => ⟨p, false, 1⟩
    | .failed => ⟨safeDefaultPlan, true, 1⟩
    | .malformed =>
      let r := plannerAttempts resp (i + 1) fuel
      ⟨r.plan, r.errored, r.calls + 1⟩

/-- Modelled from the spec: `Planner.plan` — the initial attempt plus up to
`plannerRetries` retries (§4.4). -/
def plannerPlan (resp : Nat → PlannerResponse) : PlannerResult :=
  plannerAttempts resp 0 (plannerRetries + 1)

/-- Modelled from the spec: outcome of one search-provider call (§1). -/
inductive SearchOutcome where
  | ok (results : List Candidate)
  | err
deriving Repr

/-- Modelled from the spec: outcome of one extraction-provider call (§1). -/
inductive ExtractOutcome where
  | ok (content : String)
  | err
deriving DecidableEq, Repr

/-- Modelled from the spec: outcome of the synthesis reasoning-engine call —
a stream of text fragments or a failure (§4.6). -/
inductive SynthOutcome where
  | ok (fragments : List String)
  | err
deriving Repr

/-- A record of which external provider was called, used to state that the
failed-INIT path issues no provider call at all (§7, InvalidRequest). -/
inductive ProviderCall where
  | searchCall
  | extractCall
  | reasonCall
deriving DecidableEq, Repr

/-- Modelled from the spec: the behaviour of the external collaborators over
one session — search and extract outcomes per depth, the analysis call's
success, the Planner's reasoning-engine answers per depth and attempt, the
synthesis outcome, and the clock reading observed at the budget check of
each depth (§1, §5). -/
structure ProviderEnv where
  search : Nat → String → SearchOutcome
  extract : Nat → Url → ExtractOutcome
  analyzeOk : Nat → Bool
  planner : Nat → Nat → PlannerResponse
  synth : SynthOutcome
  timeAt : Nat → Nat

/-- Events, calls and registry produced by one SEARCHING entry. -/
structure SearchPhaseOut where
  events : List Event
  calls : List ProviderCall
  reg : SourceRegistry
  newItems : List SourceItem
deriving Repr

/-- Modelled from the spec: one search call at depth `d` for query `q` —
an activity record resolves to complete or error, candidates are registered,
and only new registrations emit source-deltas (§4.5 SEARCHING). -/
def searchStep (env : ProviderEnv) (d : Nat) (q : String)
    (reg : SourceRegistry) : SearchPhaseOut :=
  match env.search d q with
  | .ok results =>
    let r := registerAll reg results
    ⟨[.activityDelta .searching .pending d] ++ r.events ++
       [.activityDelta .searching .complete d],
     [.searchCall], r.reg, r.newItems⟩
  | .err =>
    ⟨[.activityDelta .searching .pending d, .activityDelta .searching .error d],
     [.searchCall], reg, []⟩

/-- Modelled from the spec: the SEARCHING entry issues one search call per
query of the current query set, in order (§4.5). -/
def searchPhase (env : ProviderEnv) (d : Nat) :
    List String → SourceRegistry → SearchPhaseOut
  | [], reg => ⟨[], [], reg, []⟩
  | q :: t, reg =>
    let r1 := searchStep env d q reg
    let r2 := searchPhase env d t r1.reg
    ⟨r1.events ++ r2.events, r1.calls ++ r2.calls, r2.reg,
      r1.newItems ++ r2.newItems⟩

/-- Events, calls and registry produced by one EXTRACTING entry. -/
structure ExtractPhaseOut where
  events : List Event
  calls : List ProviderCall
  reg : SourceRegistry
deriving Repr

/-- Modelled from the spec: one extraction call — its activity record
resolves independently, and on success the content is merged into the
registry entry with the same canonical key (§4.5 EXTRACTING). -/
def extractStep (env : ProviderEnv) (d : Nat) (it : SourceItem)
    (reg : SourceRegistry) : ExtractPhaseOut :=
  match env.extract d it.url with
  | .ok content =>
    ⟨[.activityDelta .extracting .pending d,
       .activityDelta .extracting .complete d],
     [.extractCall],
     reg.map (fun j =>
       if decide (j.canonicalUrl = it.canonicalUrl) then
         { j with content := mergeContent j.content (some content) }
       else j)⟩
  | .err =>
    ⟨[.activityDelta .extracting .pending d,
       .activityDelta .extracting .error d],
     [.extractCall], reg⟩

/-- Modelled from the spec: the EXTRACTING entry runs extraction for the
selected sources; one failure does not abort the siblings (§4.5).  The
concurrent calls are joined before ANALYZING, so their joined effect is the
fold below. -/
def extractPhase (env : ProviderEnv) (d : Nat) :
    List SourceItem → SourceRegistry → ExtractPhaseOut
  | [], reg => ⟨[], [], reg⟩
  | it :: t, reg =>
    let r1 := extractStep env d it reg
    let r2 := extractPhase env d t r1.reg
    ⟨r1.events ++ r2.events, r1.calls ++ r2.calls, r2.reg⟩

/-- Modelled from the spec: the extraction batch size K (§4.5, top-K with
K = 3). -/
def extractTopK : Nat := 3

/-- Modelled from the spec: the ANALYZING entry — a single reasoning-engine
call whose failure only records an error ActivityItem (§4.5). -/
def analyzeStep (env : ProviderEnv) (d : Nat) : List Event × List ProviderCall :=
  if env.analyzeOk d then
    ([.activityDelta .analyzing .pending d, .activityDelta .analyzing .complete d],
     [.reasonCall])
  else
    ([.activityDelta .analyzing .pending d, .activityDelta .analyzing .error d],
     [.reasonCall])

/-- Modelled from the spec: the events of one PLANNING entry — the plan
activity record (error status when the Planner fell back to the safe
default), then the depth-delta for the incremented depth (§4.5 PLANNING). -/
def planStepEvents (d : Nat) (pr : PlannerResult) : List Event :=
  [.activityDelta .planning .pending d,
   .activityDelta .planning (if pr.errored then .error else .complete) d,
   .depthDelta (d + 1)]

/-- Events, calls, session and registry produced by the research loop. -/
structure LoopOut where
  events : List Event
  calls : List ProviderCall
  session : ResearchSession
  reg : SourceRegistry
deriving Repr

/-- Modelled from the spec: the research loop of the Orchestrator — each
iteration consults the BudgetController, then runs
SEARCHING→EXTRACTING→ANALYZING→PLANNING, increments the depth, and repeats
while the plan says continue (§4.5).  The fuel argument equals the remaining
depth budget, which the budget check keeps ahead of the recursion. -/
def researchLoop (env : ProviderEnv) :
    Nat → ResearchSession → List String → SourceRegistry → LoopOut
  | 0, s, _, reg => ⟨[], [], s, reg⟩
  | fuel + 1, s, qs, reg =>
    if shouldStartIteration s (env.timeAt s.currentDepth) then
      let d := s.currentDepth
      let r1 := searchPhase env d qs reg
      let r2 := extractPhase env d (r1.newItems.take extractTopK) r1.reg
      let r3 := analyzeStep env d
      let pr := plannerPlan (env.planner d)
      let e4 := planStepEvents d pr
      let c4 := List.replicate pr.calls ProviderCall.reasonCall
      let s1 := { s with currentDepth := d + 1 }
      match pr.plan.decision with
      | .cont =>
        let r5 := researchLoop env fuel s1 pr.plan.nextQueries r2.reg
        ⟨r1.events ++ r2.events ++ r3.1 ++ e4 ++ r5.events,
         r1.calls ++ r2.calls ++ r3.2 ++ c4 ++ r5.calls,
         r5.session, r5.reg⟩
      | .stop =>
        ⟨r1.events ++ r2.events ++ r3.1 ++ e4,
         r1.calls ++ r2.calls ++ r3.2 ++ c4, s1, r2.reg⟩
    else
      ⟨[], [], s, reg⟩

/-- Modelled from the spec: the best-effort report assembled from source
titles when synthesis fails — never blank (§4.5 SYNTHESIZING). -/
def fallbackReport (reg : SourceRegistry) : String :=
  "Research summary (best effort): " ++
    String.intercalate "; " (reg.map (fun it => it.title))

/-- Modelled from the spec: the SYNTHESIZING entry — a single reasoning
call streaming text-delta fragments, or on failure the best-effort report
(§4.5, §4.6). -/
def synthStep (env : ProviderEnv) (d : Nat) (reg : SourceRegistry) :
    List Event × List ProviderCall × String :=
  match env.synth with
  | .ok fragments =>
    ([.activityDelta .synthesizing .pending d] ++
       fragments.map Event.textDelta ++
       [.activityDelta .synthesizing .complete d],
     [.reasonCall], String.join fragments)
  | .err =>
    ([.activityDelta .synthesizing .pending d,
       .activityDelta .synthesizing .error d],
     [.reasonCall], fallbackReport reg)

/-- Modelled from the spec: the report carried by the finish event of a
session whose INIT validation failed (§7, InvalidRequest). -/
def invalidRequestReport : String :=
  "Invalid request: query must be a non-empty string."

/-- Modelled from the spec: the estimated total steps announced by
progress-init (§6). -/
def estimatedTotalSteps (s : ResearchSession) : Nat :=
  s.maxDepth * 5

/-- The complete outcome of one session run. -/
structure RunResult where
  events : List Event
  calls : List ProviderCall
  session : ResearchSession
  registry : SourceRegistry
deriving Repr

/-- Modelled from the spec: the full Orchestrator run (§4.5).  INIT
validates the query and clamps the budgets; on validation failure the
session is marked failed and a single finish event carries an explanatory
report with no provider call issued.  Otherwise the research loop runs,
synthesis always runs exactly once, and DONE sets the terminal status
(timed_out when the time cap was reached, completed otherwise) and emits
the single final finish event. -/
def runSession (env : ProviderEnv) (r : Request) (startTime : Nat) : RunResult :=
  let s0 := initSession r startTime
  if r.query = "" then
    ⟨[.finish invalidRequestReport 0 0], [],
      { s0 with status := .failed }, []⟩
  else
    let lo := researchLoop env s0.maxDepth s0 [r.query] []
    let sy := synthStep env lo.session.currentDepth lo.reg
    let finalStatus :=
      if lo.session.timeLimit ≤
          elapsed lo.session (env.timeAt lo.session.currentDepth) then
        SessionStatus.timedOut
      else
        SessionStatus.completed
    ⟨[.progressInit (estimatedTotalSteps s0)] ++ lo.events ++ sy.1 ++
       [.finish sy.2.2 lo.session.currentDepth lo.reg.length],
     lo.calls ++ sy.2.1,
     { lo.session with status := finalStatus }, lo.reg⟩

/-! ## Event-stream observations -/

/-- Whether an event is the terminal finish event. -/
def isFinishEvent : Event → Bool
  | .finish _ _ _ => true
  | _ => false

/-- The depth payload of a depth-delta event, if any. -/
def depthPayload : Event → Option Nat
  | .depthDelta d => some d
  | _ => none

/-- The sequence of depth values carried by the depth-delta events of a
stream, in emission order. -/
def depthDeltas (l : List Event) : List Nat :=
  l.filterMap depthPayload

/-- Whether the last event of a stream is a finish event. -/
def lastIsFinish (l : List Event) : Bool :=
  match l.getLast? with
  | some e => isFinishEvent e
  | none => false

/-- Whether a list of naturals is non-decreasing. -/
def nondecr : List Nat → Bool
  | [] => true
  | [_] => true
  | a :: b :: t => decide (a ≤ b) && nondecr (b :: t)

/-- Events that are neither finish, nor depth-delta, nor progress-init:
activity, source and text deltas. -/
def plainEvent : Event → Bool
  | .activityDelta _ _ _ => true
  | .sourceDelta _ _ => true
  | .textDelta _ => true
  | _ => false

theorem isFinish_of_plain (e : Event) (h : plainEvent e = true) :
    isFinishEvent e = false := by
  cases e <;> simp [plainEvent] at h <;> rfl

theorem depthPayload_of_plain (e : Event) (h : plainEvent e = true) :
    depthPayload e = none := by
  cases e <;> simp [plainEvent] at h <;> rfl

theorem countP_isFinish_of_plain (l : List Event)
    (h : l.all plainEvent = true) :
    l.countP (fun e => isFinishEvent e) = 0 := by
  induction l with
  | nil => rfl
  | cons e t ih =>
    rw [List.all_cons, Bool.and_eq_true] at h
    rw [List.countP_cons, ih h.2]
    simp [isFinish_of_plain e h.1]

theorem depthDeltas_of_plain (l : List Event)
    (h : l.all plainEvent = true) :
    depthDeltas l = [] := by
  induction l with
  | nil => rfl
  | cons e t ih =>
    rw [List.all_cons, Bool.and_eq_true] at h
    rw [depthDeltas, List.filterMap_cons, depthPayload_of_plain e h.1]
    exact ih h.2

theorem nondecr_tail (a : Nat) (l : List Nat)
    (h : nondecr (a :: l) = true) : nondecr l = true := by
  cases l with
  | nil => rfl
  | cons b t =>
    rw [nondecr, Bool.and_eq_true] at h
    exact h.2

theorem register_events_plain (reg : SourceRegistry) (c : Candidate) :
    ((register reg c).2.2.toList).all plainEvent = true := by
  simp only [register]
  split <;> rfl

theorem registerAll_events_plain (cs : List Candidate) :
    ∀ reg, ((registerAll reg cs).events).all plainEvent = true := by
  induction cs with
  | nil => intro reg; rfl
  | cons c t ih =>
    intro reg
    rw [registerAll]
    split <;>
      simp only [List.all_append, Bool.and_eq_true] <;>
      exact ⟨register_events_plain reg c, ih _⟩

theorem searchStep_events_plain (env : ProviderEnv) (d : Nat) (q : String)
    (reg : SourceRegistry) :
    ((searchStep env d q reg).events).all plainEvent = true := by
  cases hs : env.search d q <;>
    simp [searchStep, hs, List.all_append, plainEvent, registerAll_events_plain]

theorem searchPhase_events_plain (env : ProviderEnv) (d : Nat)
    (qs : List String) :
    ∀ reg, ((searchPhase env d qs reg).events).all plainEvent = true := by
  induction qs with
  | nil => intro reg; rfl
  | cons q t ih =>
    intro reg
    simp [searchPhase, List.all_append, searchStep_events_plain, ih]

theorem extractStep_events_plain (env : ProviderEnv) (d : Nat)
    (it : SourceItem) (reg : SourceRegistry) :
    ((extractStep env d it reg).events).all plainEvent = true := by
  cases he : env.extract d it.url <;>
    simp [extractStep, he, plainEvent]

theorem extractPhase_events_plain (env : ProviderEnv) (d : Nat)
    (items : List SourceItem) :
    ∀ reg, ((extractPhase env d items reg).events).all plainEvent = true := by
  induction items with
  | nil => intro reg; rfl
  | cons it t ih =>
    intro reg
    simp [extractPhase, List.all_append, extractStep_events_plain, ih]

theorem analyzeStep_events_plain (env : ProviderEnv) (d : Nat) :
    ((analyzeStep env d).1).all plainEvent = true := by
  cases ha : env.analyzeOk d <;>
    simp [analyzeStep, ha, plainEvent]

theorem synthStep_events_plain (env : ProviderEnv) (d : Nat)
    (reg : SourceRegistry) :
    ((synthStep env d reg).1).all plainEvent = true := by
  cases hs : env.synth <;>
    simp [synthStep, hs, List.all_append, List.all_map, plainEvent, Function.comp]

theorem planStepEvents_countP_finish (d : Nat) (pr : PlannerResult) :
    (planStepEvents d pr).countP (fun e => isFinishEvent e) = 0 := by
  simp [planStepEvents, isFinishEvent]

theorem planStepEvents_depthDeltas (d : Nat) (pr : PlannerResult) :
    depthDeltas (planStepEvents d pr) = [d + 1] := by
  simp [planStepEvents, depthDeltas, depthPayload]

theorem researchLoop_no_finish (env : ProviderEnv) (fuel : Nat) :
    ∀ s qs reg,
      ((researchLoop env fuel s qs reg).events).countP
        (fun e => isFinishEvent e) = 0 := by
  induction fuel with
  | zero => intro s qs reg; rfl
  | succ fuel ih =>
    intro s qs reg
    rw [researchLoop]
    split
    · have c1 := countP_isFinish_of_plain _
        (searchPhase_events_plain env s.currentDepth qs reg)
      have c2 := countP_isFinish_of_plain
        ((extractPhase env s.currentDepth
          (((searchPhase env s.currentDepth qs reg).newItems).take extractTopK)
          (searchPhase env s.currentDepth qs reg).reg).events)
        (extractPhase_events_plain env s.currentDepth _ _)
      have c3 := countP_isFinish_of_plain _
        (analyzeStep_events_plain env s.currentDepth)
      cases hdec : (plannerPlan (env.planner s.currentDepth)).plan.decision <;>
        simp [hdec, List.countP_append, c1, c2, c3,
          planStepEvents_countP_finish, ih]
    · rfl

theorem researchLoop_session_budget (env : ProviderEnv) (fuel : Nat) :
    ∀ s qs reg,
      ((researchLoop env fuel s qs reg).session.maxDepth = s.maxDepth ∧
        (researchLoop env fuel s qs reg).session.timeLimit = s.timeLimit ∧
        (researchLoop env fuel s qs reg).session.startTime = s.startTime) := by
  induction fuel with
  | zero => intro s qs reg; exact ⟨rfl, rfl, rfl⟩
  | succ fuel ih =>
    intro s qs reg
    rw [researchLoop]
    split
    · cases hdec : (plannerPlan (env.planner s.currentDepth)).plan.decision <;>
        simp only [hdec]
      · exact ih _ _ _
      · exact ⟨by trivial, by trivial, by trivial⟩
    · exact ⟨by trivial, by trivial, by trivial⟩

theorem researchLoop_depth_le (env : ProviderEnv) (fuel : Nat) :
    ∀ s qs reg,
      (researchLoop env fuel s qs reg).session.currentDepth ≤
        s.currentDepth + fuel := by
  induction fuel with
  | zero => intro s qs reg; simp [researchLoop]
  | succ fuel ih =>
    intro s qs reg
    rw [researchLoop]
    split
    · cases hdec : (plannerPlan (env.planner s.currentDepth)).plan.decision <;>
        simp only [hdec]
      · calc (researchLoop env fuel
              { s with currentDepth := s.currentDepth + 1 }
              (plannerPlan (env.planner s.currentDepth)).plan.nextQueries
              (extractPhase env s.currentDepth
                (((searchPhase env s.currentDepth qs reg).newItems).take extractTopK)
                (searchPhase env s.currentDepth qs reg).reg).reg).session.currentDepth
            ≤ s.currentDepth + 1 + fuel := ih _ _ _
          _ = s.currentDepth + (fuel + 1) := by omega
      · simp
    · exact Nat.le_add_right s.currentDepth (fuel + 1)

theorem researchLoop_depthDeltas_mem (env : ProviderEnv) (fuel : Nat) :
    ∀ s qs reg x,
      x ∈ depthDeltas (researchLoop env fuel s qs reg).events →
        s.currentDepth < x ∧ x ≤ s.currentDepth + fuel := by
  induction fuel with
  | zero =>
    intro s qs reg x hx
    simp [researchLoop, depthDeltas] at hx
  | succ fuel ih =>
    intro s qs reg x hx
    rw [researchLoop] at hx
    split at hx
    · have p1 := depthDeltas_of_plain _
        (searchPhase_events_plain env s.currentDepth qs reg)
      have p2 := depthDeltas_of_plain
        ((extractPhase env s.currentDepth
          (((searchPhase env s.currentDepth qs reg).newItems).take extractTopK)
          (searchPhase env s.currentDepth qs reg).reg).events)
        (extractPhase_events_plain env s.currentDepth _ _)
      have p3 := depthDeltas_of_plain _
        (analyzeStep_events_plain env s.currentDepth)
      simp only [depthDeltas] at p1 p2 p3
      cases hdec : (plannerPlan (env.planner s.currentDepth)).plan.decision <;>
        simp only [hdec, depthDeltas, List.filterMap_append, p1, p2, p3,
          List.nil_append,
          show ∀ d pr, List.filterMap depthPayload (planStepEvents d pr) = [d+1]
            from fun d pr => planStepEvents_depthDeltas d pr] at hx
      · rcases List.mem_append.mp hx with hx | hx
        · rw [List.mem_singleton] at hx
          omega
        · have := ih _ _ _ x hx
          simp only at this
          omega
      · rw [List.mem_singleton] at hx
        omega
    · simp [depthDeltas] at hx

/-- The research loop of a full run, named for reuse in the theorems. -/
def loopOf (env : ProviderEnv) (r : Request) (st : Nat) : LoopOut :=
  researchLoop env (initSession r st).maxDepth (initSession r st) [r.query] []

/-- The synthesis step of a full run, named for reuse in the theorems. -/
def synthOf (env : ProviderEnv) (r : Request) (st : Nat) :
    List Event × List ProviderCall × String :=
  synthStep env (loopOf env r st).session.currentDepth (loopOf env r st).reg

theorem runSession_eq_nonempty (env : ProviderEnv) (r : Request) (st : Nat)
    (hq : ¬ r.query = "") :
    runSession env r st =
      ⟨[.progressInit (estimatedTotalSteps (initSession r st))] ++
         (loopOf env r st).events ++ (synthOf env r st).1 ++
         [.finish (synthOf env r st).2.2 (loopOf env r st).session.currentDepth
           (loopOf env r st).reg.length],
       (loopOf env r st).calls ++ (synthOf env r st).2.1,
       { (loopOf env r st).session with status :=
           if ((loopOf env r st).session.timeLimit ≤
               elapsed (loopOf env r st).session
                 (env.timeAt (loopOf env r st).session.currentDepth)) then
             SessionStatus.timedOut
           else
             SessionStatus.completed },
       (loopOf env r st).reg⟩ := by
  simp [runSession, hq, loopOf, synthOf]

theorem researchLoop_depthDeltas_nondecr (env : ProviderEnv) (fuel : Nat) :
    ∀ s qs reg,
      nondecr (s.currentDepth ::
        depthDeltas (researchLoop env fuel s qs reg).events) = true := by
  induction fuel with
  | zero => intro s qs reg; rfl
  | succ fuel ih =>
    intro s qs reg
    rw [researchLoop]
    split
    · have p1 := depthDeltas_of_plain _
        (searchPhase_events_plain env s.currentDepth qs reg)
      have p2 := depthDeltas_of_plain
        ((extractPhase env s.currentDepth
          (((searchPhase env s.currentDepth qs reg).newItems).take extractTopK)
          (searchPhase env s.currentDepth qs reg).reg).events)
        (extractPhase_events_plain env s.currentDepth _ _)
      have p3 := depthDeltas_of_plain _
        (analyzeStep_events_plain env s.currentDepth)
      simp only [depthDeltas] at p1 p2 p3
      cases hdec : (plannerPlan (env.planner s.currentDepth)).plan.decision <;>
        simp only [hdec, depthDeltas, List.filterMap_append, p1, p2, p3,
          List.nil_append,
          show ∀ d pr, List.filterMap depthPayload (planStepEvents d pr) = [d+1]
            from fun d pr => planStepEvents_depthDeltas d pr]
      · have := ih { s with currentDepth := s.currentDepth + 1 }
          (plannerPlan (env.planner s.currentDepth)).plan.nextQueries
          (extractPhase env s.currentDepth
            (((searchPhase env s.currentDepth qs reg).newItems).take extractTopK)
            (searchPhase env s.currentDepth qs reg).reg).reg
        simp only [depthDeltas] at this
        rw [List.cons_append, nondecr, Bool.and_eq_true]
        exact ⟨by simp, this⟩
      · simp [nondecr]
    · rfl

/-! ## Claim theorems for the research engine -/

/-- C2: `shouldStartIteration` returns false exactly when
`currentDepth >= maxDepth` or `elapsed >= timeLimit`.  It is a pure Lean
function of the session value and the clock reading, so it mutates neither
the session nor anything else. -/
theorem c2_shouldStartIteration_iff (s : ResearchSession) (now : Nat) :
    shouldStartIteration s now = false ↔
      (s.maxDepth ≤ s.currentDepth ∨ s.timeLimit ≤ elapsed s now) := by
  simp [shouldStartIteration]
  omega

/-- C5: INIT clamps the caller-supplied maxDepth into [1,7] and timeLimit
into [1000 ms, 270000 ms] before any iteration runs, and the run never
changes these clamped budgets, so the session never operates outside the
caps regardless of caller input. -/
theorem c5_budgets_clamped (env : ProviderEnv) (r : Request) (st : Nat) :
    (1 ≤ (initSession r st).maxDepth ∧ (initSession r st).maxDepth ≤ 7 ∧
      1000 ≤ (initSession r st).timeLimit ∧
      (initSession r st).timeLimit ≤ 270000) ∧
    ((runSession env r st).session.maxDepth = (initSession r st).maxDepth ∧
      (runSession env r st).session.timeLimit = (initSession r st).timeLimit) := by
  constructor
  · refine ⟨?_, ?_, ?_, ?_⟩ <;>
      · cases hd : r.maxDepth <;> cases ht : r.timeLimit <;>
          first
          | (simp [initSession, clampMaxDepth, clampTimeLimit, maxDepthCap,
              timeLimitCapMs, timeLimitFloorMs, hd, ht]; omega)
          | simp [initSession, clampMaxDepth, clampTimeLimit, maxDepthCap,
              timeLimitCapMs, timeLimitFloorMs, hd, ht]
  · by_cases hq : r.query = ""
    · simp [runSession, hq]
    · rw [runSession_eq_nonempty env r st hq]
      have hb := researchLoop_session_budget env (initSession r st).maxDepth
        (initSession r st) [r.query] []
      exact ⟨hb.1, hb.2.1⟩

/-- C7: on an empty query the session fails at INIT: the stream is a single
finish event carrying the explanatory report, the status is failed, and no
search, extract or reasoning-engine call is issued. -/
theorem c7_empty_query_failed_no_calls (env : ProviderEnv) (r : Request)
    (st : Nat) (h : r.query = "") :
    (runSession env r st).events = [Event.finish invalidRequestReport 0 0] ∧
    (runSession env r st).session.status = SessionStatus.failed ∧
    (runSession env r st).calls = [] := by
  refine ⟨?_, ?_, ?_⟩ <;> simp [runSession, h]

/-- C1: once INIT validation succeeds, every run — over every possible
behaviour of the search, extract and reasoning-engine providers, however
many of their calls error — emits exactly one finish event, that finish
event is the last event of the stream, and the session ends in a terminal
DONE status (completed or timed_out). -/
theorem c1_exactly_one_finish_last (env : ProviderEnv) (r : Request)
    (st : Nat) (h : r.query ≠ "") :
    (runSession env r st).events.countP (fun e => isFinishEvent e) = 1 ∧
    lastIsFinish (runSession env r st).events = true ∧
    ((runSession env r st).session.status = SessionStatus.completed ∨
      (runSession env r st).session.status = SessionStatus.timedOut) := by
  rw [runSession_eq_nonempty env r st h]
  refine ⟨?_, ?_, ?_⟩
  · have cl : List.countP (fun e => isFinishEvent e)
        (loopOf env r st).events = 0 :=
      researchLoop_no_finish env (initSession r st).maxDepth
        (initSession r st) [r.query] []
    have cs : List.countP (fun e => isFinishEvent e) (synthOf env r st).1 = 0 :=
      countP_isFinish_of_plain _
        (synthStep_events_plain env (loopOf env r st).session.currentDepth
          (loopOf env r st).reg)
    have hA : List.countP (fun e => isFinishEvent e)
        [Event.progressInit (estimatedTotalSteps (initSession r st))] = 0 := rfl
    have hD : List.countP (fun e => isFinishEvent e)
        [Event.finish (synthOf env r st).2.2
          (loopOf env r st).session.currentDepth
          (loopOf env r st).reg.length] = 1 := rfl
    simp only [List.countP_append, hA, hD, cs, cl]
  · rw [lastIsFinish, List.getLast?_concat]
    rfl
  · by_cases ht : ((loopOf env r st).session.timeLimit ≤
        elapsed (loopOf env r st).session
          (env.timeAt (loopOf env r st).session.currentDepth))
    · right
      simp [ht]
    · left
      simp [ht]

/-- C4: in every session the depth value carried by each depth-delta event
is at most the session's (clamped) maxDepth — and at least 0, being a
natural number — and the sequence of depth-delta values is non-decreasing. -/
theorem c4_depth_deltas_bounded_monotone (env : ProviderEnv) (r : Request)
    (st : Nat) :
    ((depthDeltas (runSession env r st).events).all
      (fun x => decide (x ≤ (runSession env r st).session.maxDepth)) = true) ∧
    nondecr (depthDeltas (runSession env r st).events) = true := by
  by_cases hq : r.query = ""
  · refine ⟨?_, ?_⟩ <;> simp [runSession, hq, depthDeltas, depthPayload, nondecr]
  · rw [runSession_eq_nonempty env r st hq]
    have psy := depthDeltas_of_plain _
      (synthStep_events_plain env (loopOf env r st).session.currentDepth
        (loopOf env r st).reg)
    have hms := researchLoop_session_budget env (initSession r st).maxDepth
      (initSession r st) [r.query] []
    have hdd : depthDeltas
        ([Event.progressInit (estimatedTotalSteps (initSession r st))] ++
          (loopOf env r st).events ++ (synthOf env r st).1 ++
          [Event.finish (synthOf env r st).2.2
            (loopOf env r st).session.currentDepth
            (loopOf env r st).reg.length]) =
        depthDeltas (loopOf env r st).events := by
      simp only [depthDeltas, List.filterMap_append] at psy ⊢
      rw [show (synthOf env r st).1 =
          (synthStep env (loopOf env r st).session.currentDepth
            (loopOf env r st).reg).1 from rfl, psy]
      simp [depthPayload]
    refine ⟨?_, ?_⟩
    · rw [List.all_eq_true]
      intro x hx
      rw [decide_eq_true_eq]
      rw [hdd] at hx
      have hb := researchLoop_depthDeltas_mem env (initSession r st).maxDepth
        (initSession r st) [r.query] [] x hx
      have h0 : (initSession r st).currentDepth = 0 := rfl
      have hm : (loopOf env r st).session.maxDepth = (initSession r st).maxDepth :=
        hms.1
      show x ≤ (loopOf env r st).session.maxDepth
      omega
    · rw [hdd]
      have hnd := researchLoop_depthDeltas_nondecr env (initSession r st).maxDepth
        (initSession r st) [r.query] []
      exact nondecr_tail _ _ hnd

/-- C6: whenever the reasoning engine gives no well-formed answer within the
retry budget — every attempt is malformed or a call fails outright — the
Planner returns the safe default plan `{finish, [], "planning failed"}` and
flags the error so the PLANNING entry records an error ActivityItem; and no
provider failure ever sets a validated session's status to failed. -/
theorem c6_planner_safe_default (resp : Nat → PlannerResponse)
    (h : ∀ i, i < plannerRetries + 1 →
      resp i = PlannerResponse.malformed ∨ resp i = PlannerResponse.failed) :
    (plannerPlan resp).plan = safeDefaultPlan ∧
    (plannerPlan resp).errored = true ∧
    (∀ d, Event.activityDelta ActKind.planning ActStatus.error d ∈
      planStepEvents d (plannerPlan resp)) ∧
    (∀ env r st, r.query ≠ "" →
      (runSession env r st).session.status ≠ SessionStatus.failed) := by
  have h0 := h 0 (by norm_num [plannerRetries])
  have h1 := h 1 (by norm_num [plannerRetries])
  have h2 := h 2 (by norm_num [plannerRetries])
  have key : (plannerPlan resp).plan = safeDefaultPlan ∧
      (plannerPlan resp).errored = true := by
    rcases h0 with h0 | h0 <;> rcases h1 with h1 | h1 <;> rcases h2 with h2 | h2 <;>
      simp [plannerPlan, plannerRetries, plannerAttempts, h0, h1, h2]
  refine ⟨key.1, key.2, ?_, ?_⟩
  · intro d
    simp [planStepEvents, key.2]
  · intro env r st hq
    rw [runSession_eq_nonempty env r st hq]
    by_cases ht : ((loopOf env r st).session.timeLimit ≤
        elapsed (loopOf env r st).session
          (env.timeAt (loopOf env r st).session.currentDepth)) <;>
      simp [ht]

/-- C3: two candidates whose URLs canonicalize to the same key (case of the
host, trailing slash, fragment and query order being immaterial) produce a
single registry entry: the first registration is new, the second returns
isNew=false, emits no source-delta, and only merges content into the
existing item. -/
theorem c3_registry_dedup (reg : SourceRegistry) (a b : Candidate)
    (hkey : canonicalize a.url = canonicalize b.url)
    (habs : ∀ it ∈ reg, it.canonicalUrl ≠ canonicalize a.url) :
    (register reg a).1 = true ∧
    (register (register reg a).2.1 b).1 = false ∧
    (register (register reg a).2.1 b).2.2 = none ∧
    (register (register reg a).2.1 b).2.1 =
      reg ++ [⟨a.url, canonicalize a.url, a.title,
        mergeContent a.snippet b.snippet⟩] ∧
    ((register (register reg a).2.1 b).2.1.countP
      (fun it => decide (it.canonicalUrl = canonicalize a.url))) = 1 := by
  have hany : (reg.any fun it => decide (it.canonicalUrl = canonicalize a.url))
      = false := by
    rw [List.any_eq_false]
    intro it hit
    simp [habs it hit]
  have hreg1 : register reg a =
      (true, reg ++ [⟨a.url, canonicalize a.url, a.title, a.snippet⟩],
        some (.sourceDelta a.url a.title)) := by
    simp [register, hany]
  have hanyb : (((reg ++ [⟨a.url, canonicalize a.url, a.title, a.snippet⟩]) :
      SourceRegistry).any fun it => decide (it.canonicalUrl = canonicalize b.url))
      = true := by
    rw [List.any_append]
    refine Bool.or_eq_true_iff.mpr (Or.inr ?_)
    simp [← hkey]
  have hmap : (((reg ++ [⟨a.url, canonicalize a.url, a.title, a.snippet⟩]) :
      SourceRegistry).map (fun it =>
        if decide (it.canonicalUrl = canonicalize b.url) then
          { it with content := mergeContent it.content b.snippet }
        else it)) =
      reg ++ [⟨a.url, canonicalize a.url, a.title,
        mergeContent a.snippet b.snippet⟩] := by
    rw [List.map_append]
    congr 1
    · have : ∀ it ∈ reg, (if decide (it.canonicalUrl = canonicalize b.url) then
          { it with content := mergeContent it.content b.snippet }
        else it) = it := by
        intro it hit
        have : it.canonicalUrl ≠ canonicalize b.url := by
          rw [← hkey]
          exact habs it hit
        simp [this]
      rw [List.map_congr_left this]
      simp
    · simp [← hkey]
  have hreg2 : register (register reg a).2.1 b =
      (false, reg ++ [⟨a.url, canonicalize a.url, a.title,
        mergeContent a.snippet b.snippet⟩], none) := by
    rw [hreg1]
    simp only [register, hanyb, if_true]
    rw [hmap]
  refine ⟨by rw [hreg1], by rw [hreg2], by rw [hreg2], by rw [hreg2], ?_⟩
  rw [hreg2]
  simp only [List.countP_append]
  have hzero : (reg.countP fun it => decide (it.canonicalUrl = canonicalize a.url))
      = 0 := by
    rw [List.countP_eq_zero]
    intro it hit
    simp [habs it hit]
  rw [hzero]
  simp

/-! ## Witnesses at concrete inputs -/

/-- A provider environment in which every provider call errors: search and
extract fail, analysis fails, every planner call fails, synthesis fails. -/
def allFailEnv : ProviderEnv :=
  ⟨fun _ _ => .err, fun _ _ => .err, fun _ => false, fun _ _ => .failed,
    .err, fun _ => 0⟩

/-- Witness for C1: a concrete run in which every provider call errors
still emits exactly one finish event, last, and terminates. -/
theorem c1_exactly_one_finish_last_witness :
    (runSession allFailEnv ⟨"query", none, none⟩ 0).events.countP
      (fun e => isFinishEvent e) = 1 ∧
    lastIsFinish (runSession allFailEnv ⟨"query", none, none⟩ 0).events = true ∧
    ((runSession allFailEnv ⟨"query", none, none⟩ 0).session.status =
        SessionStatus.completed ∨
      (runSession allFailEnv ⟨"query", none, none⟩ 0).session.status =
        SessionStatus.timedOut) :=
  c1_exactly_one_finish_last allFailEnv ⟨"query", none, none⟩ 0 (by decide)

/-- Witness for C7: the empty-query request fails at INIT with one finish
event and no provider call. -/
theorem c7_empty_query_failed_no_calls_witness :
    (runSession allFailEnv ⟨"", some 3, some 60000⟩ 0).events =
      [Event.finish invalidRequestReport 0 0] ∧
    (runSession allFailEnv ⟨"", some 3, some 60000⟩ 0).session.status =
      SessionStatus.failed ∧
    (runSession allFailEnv ⟨"", some 3, some 60000⟩ 0).calls = [] :=
  c7_empty_query_failed_no_calls allFailEnv ⟨"", some 3, some 60000⟩ 0 rfl

/-- Witness for C6: a reasoning engine that answers malformed on every
attempt drives the Planner into the safe default. -/
theorem c6_planner_safe_default_witness :
    (plannerPlan (fun _ => PlannerResponse.malformed)).plan = safeDefaultPlan ∧
    (plannerPlan (fun _ => PlannerResponse.malformed)).errored = true ∧
    (∀ d, Event.activityDelta ActKind.planning ActStatus.error d ∈
      planStepEvents d (plannerPlan (fun _ => PlannerResponse.malformed))) ∧
    (∀ env r st, r.query ≠ "" →
      (runSession env r st).session.status ≠ SessionStatus.failed) :=
  c6_planner_safe_default (fun _ => PlannerResponse.malformed)
    (fun _ _ => Or.inl rfl)

/-- First candidate of the C3 witness: uppercase host, trailing slash,
unsorted query parameters, no fragment. -/
def candA : Candidate :=
  ⟨⟨"EXAMPLE.com", "/path/", [("b", "2"), ("a", "1")], none⟩,
    "Example page", none⟩

/-- Second candidate of the C3 witness: lowercase host, no trailing slash,
query parameters in the other order, a fragment, and extracted content. -/
def candB : Candidate :=
  ⟨⟨"example.com", "/path", [("a", "1"), ("b", "2")], some "sec"⟩,
    "Example page again", some "body text"⟩

/-- Witness for C3: the two concrete candidates canonicalize to the same
key, and registering both stores one entry with merged content. -/
theorem c3_registry_dedup_witness :
    (register [] candA).1 = true ∧
    (register (register [] candA).2.1 candB).1 = false ∧
    (register (register [] candA).2.1 candB).2.2 = none ∧
    (register (register [] candA).2.1 candB).2.1 =
      [] ++ [⟨candA.url, canonicalize candA.url, candA.title,
        mergeContent candA.snippet candB.snippet⟩] ∧
    ((register (register [] candA).2.1 candB).2.1.countP
      (fun it => decide (it.canonicalUrl = canonicalize candA.url))) = 1 :=
  c3_registry_dedup [] candA candB (by decide) (by simp)

/-- Witness for C2 at a concrete exhausted-depth session. -/
theorem c2_shouldStartIteration_iff_witness :
    shouldStartIteration ⟨"q", 3, 270000, 0, 3, .active⟩ 10 = false ↔
      ((⟨"q", 3, 270000, 0, 3, .active⟩ : ResearchSession).maxDepth ≤
        (⟨"q", 3, 270000, 0, 3, .active⟩ : ResearchSession).currentDepth ∨
       (⟨"q", 3, 270000, 0, 3, .active⟩ : ResearchSession).timeLimit ≤
        elapsed ⟨"q", 3, 270000, 0, 3, .active⟩ 10) :=
  c2_shouldStartIteration_iff ⟨"q", 3, 270000, 0, 3, .active⟩ 10
